import Mathlib

/-!
Verification of the `nx_rdr_wrtr` row-reader/row-writer utilities.

The Python sources (`rdr_utils.py`, `wrtr_utils.py`) are shallowly embedded:
a lazy generator of rows becomes a `List Row`, in-place mutation becomes
functional update, and a raised exception becomes the `error` branch of an
`Except`.  Python strings are Lean `String`s; Python `str.strip` and friends
become the structural `pyStrip`/`pyLStrip`/`pyRStrip` below.
-/

/-- A line of input: an ordered list of string fields tagged with the
originating line number (`MutableLine`/`ImmutableLine` in `rdr_utils.py`). -/
structure Row where
  data : List String
  line_num : Nat
deriving Repr, DecidableEq

/-- Python `str.lstrip()` on the common whitespace characters (space, tab,
newline, carriage return), implemented structurally on the character list
so that it evaluates by kernel reduction. -/
def pyLStrip (s : String) : String :=
  ⟨s.data.dropWhile Char.isWhitespace⟩

/-- Python `str.rstrip()` on the common whitespace characters. -/
def pyRStrip (s : String) : String :=
  ⟨(s.data.reverse.dropWhile Char.isWhitespace).reverse⟩

/-- Python `str.strip()` on the common whitespace characters. -/
def pyStrip (s : String) : String :=
  pyRStrip (pyLStrip s)

/-- `lstrip` from `list_reader`: left-strip every element of the list. -/
def lstrip (lst : List String) : List String :=
  lst.map pyLStrip

/-- `rstrip` from `list_reader`: right-strip every element of the list. -/
def rstrip (lst : List String) : List String :=
  lst.map pyRStrip

/-- `strip` from `list_reader`: strip every element of the list. -/
def strip (lst : List String) : List String :=
  lst.map pyStrip

/-- Apply a function to the fields of a row, keeping its line number (the
Python strip helpers mutate the list in place, so the line number of the
`Line` object is preserved). -/
def Row.mapData (f : List String → List String) (r : Row) : Row :=
  { r with data := f r.data }

/-- `list_reader` from `rdr_utils.py`: attach the common wrappers to the base
list generator.  The four optional wrappers are applied in the order they
appear in the source: whitespace stripping, blank filtering (`filter(any, _)`
keeps rows with at least one non-empty field), skipping rows equal to
`ignore`, and the user handler (rows for which the handler returns `None` are
dropped). -/
def list_reader (rdr : List Row) (leading_ws trailing_ws ignore_blanks : Bool)
    (ignore : Option (List String)) (handler : Option (Row → Option Row)) :
    List Row :=
  let rdr := if !leading_ws && !trailing_ws then rdr.map (Row.mapData strip)
             else if !trailing_ws then rdr.map (Row.mapData rstrip)
             else if !leading_ws then rdr.map (Row.mapData lstrip)
             else rdr
  let rdr := if ignore_blanks then
               rdr.filter (fun r => r.data.any (fun s => s != ""))
             else rdr
  let rdr := match ignore with
             | some ig => rdr.filter (fun r => r.data != ig)
             | none => rdr
  match handler with
  | some h => rdr.filterMap h
  | none => rdr

/-- The whitespace-stripping stage of `list_reader` in isolation
(lines 52-60 of `rdr_utils.py`). -/
def trimStage (leading_ws trailing_ws : Bool) (rdr : List Row) : List Row :=
  if !leading_ws && !trailing_ws then rdr.map (Row.mapData strip)
  else if !trailing_ws then rdr.map (Row.mapData rstrip)
  else if !leading_ws then rdr.map (Row.mapData lstrip)
  else rdr

/-- The blank-row-filtering stage of `list_reader` in isolation
(`filter(any, rdr)`, lines 62-64 of `rdr_utils.py`). -/
def blankStage (ignore_blanks : Bool) (rdr : List Row) : List Row :=
  if ignore_blanks then rdr.filter (fun r => r.data.any (fun s => s != ""))
  else rdr

/-- The sentinel-skipping stage of `list_reader` in isolation
(lines 66-68 of `rdr_utils.py`). -/
def ignoreStage (ignore : Option (List String)) (rdr : List Row) : List Row :=
  match ignore with
  | some ig => rdr.filter (fun r => r.data != ig)
  | none => rdr

/-- The handler stage of `list_reader` in isolation (lines 70-74 of
`rdr_utils.py`): rows for which the handler returns `None` are dropped. -/
def handlerStage (handler : Option (Row → Option Row)) (rdr : List Row) :
    List Row :=
  match handler with
  | some h => rdr.filterMap h
  | none => rdr

/-- The whitespace transformation `list_reader` applies to a single row. -/
def trimRowFn (leading_ws trailing_ws : Bool) (r : Row) : Row :=
  if !leading_ws && !trailing_ws then Row.mapData strip r
  else if !trailing_ws then Row.mapData rstrip r
  else if !leading_ws then Row.mapData lstrip r
  else r

/-- The fate of a single raw row under the `list_reader` pipeline with no
`ignore` sentinel: `some` cleaned row if it survives stripping, blank
filtering and the handler, `none` if it is dropped. -/
def cleanOne (leading_ws trailing_ws ignore_blanks : Bool)
    (handler : Option (Row → Option Row)) (r : Row) : Option Row :=
  let t := trimRowFn leading_ws trailing_ws r
  if ignore_blanks && !(t.data.any (fun s => s != "")) then none
  else match handler with
       | some h => h t
       | none => some t

/-- Pulling one element from the lazy pipeline
`list_reader(rdr, ignore=None, ...)` (the `next(tmp_rdr)` in `_get_fields`):
raw rows are consumed until one survives cleaning; the cleaned row is
returned together with the raw rows not yet consumed.  `none` models a
`StopIteration` from an exhausted source. -/
def headerSplit (rdr : List Row) (leading_ws trailing_ws ignore_blanks : Bool)
    (handler : Option (Row → Option Row)) : Option (Row × List Row) :=
  match rdr with
  | [] => none
  | r :: rest =>
    match cleanOne leading_ws trailing_ws ignore_blanks handler r with
    | some c => some (c, rest)
    | none => headerSplit rest leading_ws trailing_ws ignore_blanks handler

/-- A supplied field-list element: `_get_fields` accepts either a plain name
or a name-like object and takes `getattr(col, 'name', col)`. -/
inductive Col where
  | plain (s : String)
  | named (name : String)
deriving Repr, DecidableEq

/-- `getattr(col, 'name', col)` from line 95 of `rdr_utils.py`. -/
def Col.resolve : Col → String
  | .plain s => s
  | .named n => n

/-- The exceptions `_get_fields`, `dict_reader` and `obj_reader` can raise
before any record is produced.  `stopIteration` is the `StopIteration`
escaping from `next(tmp_rdr)` on line 93; the others are `ValueError`s. -/
inductive RdrErr where
  | renameWithFields
  | stopIteration
  | noFields
  | duplicateFieldNames (fields : List String)
  | blankFieldName (fields : List String)
  | invalidFieldName (field : String)
deriving Repr, DecidableEq

/-- The per-row `ValueError`s `_map_reader_gen` can raise; each carries the
line number of the offending row. -/
inductive MapErr where
  | tooManyFields (line_num fields_length line_length : Nat)
  | restKeyDuplicate (line_num : Nat) (active_fields : List String)
  | insufficientFields (line_num fields_length line_length : Nat)
deriving Repr, DecidableEq

/-- The line number carried by a per-row error. -/
def MapErr.lineNum : MapErr → Nat
  | .tooManyFields n _ _ => n
  | .restKeyDuplicate n _ => n
  | .insufficientFields n _ _ => n

/-- Lines 98-99 of `rdr_utils.py`: `if field_rename:` (an empty mapping is
falsy and skips the rename) `fields = [field_rename.get(x, x) for x in
fields]`. -/
def applyRename (field_rename : Option (List (String × String)))
    (fields : List String) : List String :=
  match field_rename with
  | some m => if m.isEmpty then fields
              else fields.map (fun x => (m.lookup x).getD x)
  | none => fields

/-- `_get_fields` from `rdr_utils.py`: process the map-reader arguments and
return the wrapped reader and the resolved field list.  When `fields` is not
supplied, one cleaned row is consumed from the shared underlying iterator as
the header (advancing it past the consumed raw rows), which is modelled by
`headerSplit`. -/
def _get_fields (rdr : List Row) (fields : Option (List Col))
    (handler : Option (Row → Option Row))
    (leading_ws trailing_ws ignore_blanks ignore_rows_with_fields : Bool)
    (field_rename : Option (List (String × String))) :
    Except RdrErr (List Row × List String) :=
  if fields.isSome ∧ field_rename.isSome then .error .renameWithFields
  else
    match (match fields with
           | none =>
             match headerSplit rdr leading_ws trailing_ws ignore_blanks
                   handler with
             | none => Except.error RdrErr.stopIteration
             | some (hdr, rest) => Except.ok (rest, hdr.data)
           | some cols => Except.ok (rdr, cols.map Col.resolve)) with
    | .error e => .error e
    | .ok (baseRdr, fs0) =>
      if fs0.isEmpty then .error .noFields
      else
        if (applyRename field_rename fs0).Nodup then
          .ok (list_reader baseRdr leading_ws trailing_ws ignore_blanks
                 (if ignore_rows_with_fields then
                    some (applyRename field_rename fs0)
                  else none) handler,
               applyRename field_rename fs0)
        else .error (.duplicateFieldNames (applyRename field_rename fs0))

/-- The body of the `for` loop of `_map_reader_gen`: reconcile one cleaned
row against the field count, producing the active fields and the (possibly
padded) row, or the `ValueError` the source raises.  The Python locals
`fields_length`, `line_length` and `active_fields` are inlined, and the
guard `len(active_fields) != len(set(active_fields))` is exactly the
failure of `Nodup`. -/
def _map_reader_step (fields : List String) (rest_key rest_val : Option String)
    (line : Row) : Except MapErr (List String × Row) :=
  if line.data.length = fields.length then
    .ok (fields, line)
  else if line.data.length > fields.length then
    match rest_key with
    | none => .error (.tooManyFields line.line_num fields.length
                        line.data.length)
    | some rk =>
      if (fields ++ (List.range (line.data.length - fields.length)).map
            (fun x => rk ++ toString x)).Nodup then
        .ok (fields ++ (List.range (line.data.length - fields.length)).map
              (fun x => rk ++ toString x), line)
      else
        .error (.restKeyDuplicate line.line_num
          (fields ++ (List.range (line.data.length - fields.length)).map
            (fun x => rk ++ toString x)))
  else
    match rest_val with
    | some rv =>
      .ok (fields,
           { line with
             data := line.data ++
               List.replicate (fields.length - line.data.length) rv })
    | none => .error (.insufficientFields line.line_num fields.length
                        line.data.length)

/-- `_map_reader_gen` from `rdr_utils.py` as a whole: the pairs yielded
before the generator either finishes (`none`) or raises (`some` error).  A
raised error ends the stream: rows after the offending one are never
reached. -/
def _map_reader_gen (fields : List String) (rest_key rest_val : Option String) :
    List Row → List (List String × Row) × Option MapErr
  | [] => ([], none)
  | line :: rest =>
    match _map_reader_step fields rest_key rest_val line with
    | .error e => ([], some e)
    | .ok p =>
      let r := _map_reader_gen fields rest_key rest_val rest
      (p :: r.1, r.2)

/-- A produced record: the dictionary (or object attribute set) built from
zipping the active fields with the row, plus the row's line number.  The
active fields are duplicate-free at every yield, so the first-match
association list coincides with Python's last-wins `dict`/`setattr`. -/
structure RecordLine where
  entries : List (String × String)
  line_num : Nat
deriving Repr, DecidableEq

/-- `{k: v for k, v in zip(fields, line)}` plus the line number
(line 150 of `rdr_utils.py`); the same zip drives the `setattr` loop of
`obj_reader` (lines 168-170). -/
def recordOfZip (fields : List String) (line : Row) : RecordLine :=
  { entries := fields.zip line.data, line_num := line.line_num }

/-- `dict_reader` from `rdr_utils.py`.  Configuration errors are the
`Except.error` branch, raised at the call itself; the yielded records and
the deferred per-row error (if iteration would raise) are the payload. -/
def dict_reader (rdr : List Row) (fields : Option (List Col))
    (handler : Option (Row → Option Row))
    (leading_ws trailing_ws ignore_blanks : Bool)
    (rest_key rest_val : Option String) (ignore_rows_with_fields : Bool)
    (field_rename : Option (List (String × String))) :
    Except RdrErr (List RecordLine × Option MapErr) :=
  match _get_fields rdr fields handler leading_ws trailing_ws ignore_blanks
        ignore_rows_with_fields field_rename with
  | .error e => .error e
  | .ok (rdr, fs) =>
    if fs.all (fun f => f != "") then
      .ok ((_map_reader_gen fs rest_key rest_val rdr).1.map
             (fun p => recordOfZip p.1 p.2),
           (_map_reader_gen fs rest_key rest_val rdr).2)
    else .error (.blankFieldName fs)

/-- Python `str.isidentifier` restricted to ASCII names, where the two
notions agree: non-empty, first character a letter or underscore, the rest
letters, digits or underscores. -/
def pyIsIdentifier (s : String) : Bool :=
  match s.data with
  | [] => false
  | c :: cs => (c.isAlpha || c == '_') &&
               cs.all (fun d => d.isAlphanum || d == '_')

/-- `obj_reader` from `rdr_utils.py`.  The `ctor` argument produces an empty
object whose attributes are then set from the zip of the active fields and
the row, so the resulting object is modelled by the same `RecordLine` as the
dictionary reader. -/
def obj_reader (rdr : List Row) (fields : Option (List Col))
    (handler : Option (Row → Option Row))
    (leading_ws trailing_ws ignore_blanks : Bool)
    (rest_key rest_val : Option String) (ignore_rows_with_fields : Bool)
    (field_rename : Option (List (String × String))) :
    Except RdrErr (List RecordLine × Option MapErr) :=
  match _get_fields rdr fields handler leading_ws trailing_ws ignore_blanks
        ignore_rows_with_fields field_rename with
  | .error e => .error e
  | .ok (rdr, fs) =>
    match fs.find? (fun f => f == "" || !(pyIsIdentifier f) ||
                    f == "line_num") with
    | some f => .error (.invalidFieldName f)
    | none =>
      .ok ((_map_reader_gen fs rest_key rest_val rdr).1.map
             (fun p => recordOfZip p.1 p.2),
           (_map_reader_gen fs rest_key rest_val rdr).2)

/-- The extra-key policies of the flattener (spec section 4.4): ignore extra
keys, error on them, or collect their values. -/
inductive ExtrasAction where
  | ignoreExtras
  | raiseOnExtras
  | collectExtras
deriving Repr, DecidableEq

/-- The failures of the flattener (spec section 4.4). -/
inductive FlattenErr where
  | missingKey (key : String)
  | unexpectedExtraKey (key : String)
deriving Repr, DecidableEq

/-- Prepend a value to the result of a flattening step, passing a failure
through. -/
def consCell (v : String) :
    Except FlattenErr (List String) → Except FlattenErr (List String)
  | .ok rest => .ok (v :: rest)
  | .error e => .error e

/-- Modelled from the spec: one field of the flattening.  The field's value
is looked up in the record; a missing key is filled from the configured
default value or causes failure. -/
def flattenOne (record : List (String × String)) (rest_val : Option String)
    (f : String) (rest : Except FlattenErr (List String)) :
    Except FlattenErr (List String) :=
  match record.lookup f with
  | some v => consCell v rest
  | none =>
    match rest_val with
    | some rv => consCell rv rest
    | none => .error (.missingKey f)

/-- Modelled from the spec: the per-field part of `nx_misc.flatten_dict`,
which belongs to the external `nx_misc` package and is not among this
repository's sources.  Spec section 4.4: "Given a record (mapping ...) and
the fixed field list, produces an ordered list of values in field order ...
missing keys ... are filled with a configured default value or cause
failure." -/
def flattenFields (record : List (String × String)) (rest_val : Option String) :
    List String → Except FlattenErr (List String)
  | [] => .ok []
  | f :: fs => flattenOne record rest_val f (flattenFields record rest_val fs)

/-- Modelled from the spec: `nx_misc.flatten_dict` (external to this
repository), the flattener `DictWriterMixin.write` applies.  Spec section
4.4: values in field order, then the configured policy for extra keys:
"ignore extra keys/attributes, error on them, or collect them under a
configured rest key". -/
def flatten_dict (record : List (String × String)) (fields : List String)
    (rest_val : Option String) (extras_action : ExtrasAction) :
    Except FlattenErr (List String) :=
  match flattenFields record rest_val fields with
  | .error e => .error e
  | .ok base =>
    match extras_action with
    | .ignoreExtras => .ok base
    | .raiseOnExtras =>
      match record.find? (fun p => !(fields.contains p.1)) with
      | some p => .error (.unexpectedExtraKey p.1)
      | none => .ok base
    | .collectExtras =>
      .ok (base ++ (record.filter (fun p => !(fields.contains p.1))).map
             Prod.snd)

/-- The failure `HeaderMixin._write` raises when a handler changes the row
length (line 82 of `wrtr_utils.py`, an `AttributeError`). -/
inductive WrtErr where
  | dataLengthChanged (lst data : List String)
deriving Repr, DecidableEq

/-- State of a writer built on `HeaderlessMixin`: the `_closed` flag plus
the number of `close()` calls the underlying writer has received. -/
structure HeaderlessState where
  closed : Bool
  wrtrCloseCalls : Nat
deriving Repr, DecidableEq

/-- `HeaderlessMixin.close` (lines 18-23 of `wrtr_utils.py`): only a
not-yet-closed writer closes the underlying writer, exactly once. -/
def HeaderlessState.close (s : HeaderlessState) : HeaderlessState :=
  if s.closed then s
  else { closed := true, wrtrCloseCalls := s.wrtrCloseCalls + 1 }

/-- `HeaderlessMixin.__exit__`: leaving a `with` block calls `close`. -/
def HeaderlessState.exitScope (s : HeaderlessState) : HeaderlessState :=
  s.close

/-- State of a writer built on `HeaderMixin`.  `fields_used` is the Python
set `_fields_used`, modelled as an append-only list queried only through
membership; `buffer` is the temporary csv store of the minimizing mode;
`emitted` is what the underlying writer has received. -/
structure HeaderWriter where
  fields : List String
  minimize : Bool
  handler : Option (List String → Option (List String))
  fields_used : List String
  buffer : List (List String)
  closed : Bool
  wrtrCloseCalls : Nat
  emitted : List (List String)

/-- The common tail of `HeaderMixin._write` (lines 86-91 of
`wrtr_utils.py`): in minimizing mode record which fields received a
non-blank value (`v is not None and str(v).strip()`, with cells modelled as
strings) and buffer the row; otherwise write it through. -/
def HeaderWriter.put (w : HeaderWriter) (data : List String) : HeaderWriter :=
  if w.minimize then
    { w with
      fields_used := w.fields_used ++
        ((w.fields.zip data).filter (fun p => (pyStrip p.2) != "")).map Prod.fst,
      buffer := w.buffer ++ [data] }
  else { w with emitted := w.emitted ++ [data] }

/-- `HeaderMixin._write` (lines 75-91 of `wrtr_utils.py`): pass the row
through the handler (dropping it on `None`, failing if the length changed),
then buffer or write it. -/
def HeaderWriter.writeRow (w : HeaderWriter) (lst : List String) :
    Except WrtErr HeaderWriter :=
  match w.handler with
  | some h =>
    match h lst with
    | none => .ok w
    | some data =>
      if data.length != lst.length then .error (.dataLengthChanged lst data)
      else .ok (w.put data)
  | none => .ok (w.put lst)

/-- Write a sequence of rows through `HeaderMixin._write`. -/
def HeaderWriter.writeAll (w : HeaderWriter) (rows : List (List String)) :
    Except WrtErr HeaderWriter :=
  match rows with
  | [] => .ok w
  | r :: rs =>
    match w.writeRow r with
    | .error e => .error e
    | .ok w' => w'.writeAll rs

/-- Lines 52-55 of `wrtr_utils.py`: the header the minimizing close writes,
namely the fields actually used, in original order, falling back to the
full field list when none were. -/
def HeaderWriter.minHeader (w : HeaderWriter) : List String :=
  if (w.fields.filter (fun x => w.fields_used.contains x)).isEmpty then
    w.fields
  else w.fields.filter (fun x => w.fields_used.contains x)

/-- `HeaderMixin.close` (lines 42-67 of `wrtr_utils.py`): only a
not-yet-closed writer acts; in minimizing mode it writes the minimized
header and replays each buffered row restricted to those fields (the csv
round trip through the temporary file and the external
`nx_misc.flatten_dict` restriction are modelled as a lookup in the zip of
the full field list with the buffered row); finally the underlying writer
is closed. -/
def HeaderWriter.close (w : HeaderWriter) : HeaderWriter :=
  if w.closed then w
  else if w.minimize then
    { w with
      closed := true,
      emitted := w.emitted ++ [w.minHeader] ++
        w.buffer.map (fun row =>
          w.minHeader.map (fun f => ((w.fields.zip row).lookup f).getD "")),
      wrtrCloseCalls := w.wrtrCloseCalls + 1 }
  else { w with closed := true, wrtrCloseCalls := w.wrtrCloseCalls + 1 }

/-- `HeaderMixin.__exit__`: leaving a `with` block calls `close`. -/
def HeaderWriter.exitScope (w : HeaderWriter) : HeaderWriter :=
  w.close

/-- Modelled from the spec: the concrete writer constructors are not among
this repository's sources (only the mixins are).  A freshly opened
minimizing or plain header writer starts open, with no fields recorded as
used, an empty buffer and nothing written. -/
def HeaderWriter.init (fields : List String) (minimize : Bool)
    (handler : Option (List String → Option (List String))) : HeaderWriter :=
  { fields := fields, minimize := minimize, handler := handler,
    fields_used := [], buffer := [], closed := false, wrtrCloseCalls := 0,
    emitted := [] }

/-- The predicate of claim C4, taken from the spec's words: a row whose
every field is empty or whitespace after trimming. -/
def specBlankRow (r : Row) : Bool :=
  r.data.all (fun s => (pyStrip s) == "")

/-- `list_reader` is the composition of its four stages in the order the
source applies them. -/
theorem list_reader_eq_stages (rdr : List Row) (lw tw ib : Bool)
    (ig : Option (List String)) (h : Option (Row → Option Row)) :
    list_reader rdr lw tw ib ig h =
      handlerStage h (ignoreStage ig (blankStage ib (trimStage lw tw rdr))) :=
  rfl

/-- The trimming stage acts row by row. -/
theorem trimStage_cons (lw tw : Bool) (r : Row) (rest : List Row) :
    trimStage lw tw (r :: rest) = trimRowFn lw tw r :: trimStage lw tw rest := by
  unfold trimStage trimRowFn
  split
  · rfl
  · split
    · rfl
    · split
      · rfl
      · rfl

/-- How `list_reader` with no `ignore` sentinel treats its first raw row:
exactly the fate `cleanOne` assigns it. -/
theorem list_reader_cons (r : Row) (rest : List Row) (lw tw ib : Bool)
    (h : Option (Row → Option Row)) :
    list_reader (r :: rest) lw tw ib none h =
      (match cleanOne lw tw ib h r with
       | some c => c :: list_reader rest lw tw ib none h
       | none => list_reader rest lw tw ib none h) := by
  rw [list_reader_eq_stages, list_reader_eq_stages]
  show handlerStage h (ignoreStage none (blankStage ib
        (trimStage lw tw (r :: rest)))) = _
  rw [trimStage_cons]
  unfold cleanOne ignoreStage
  cases ib with
  | false =>
    cases h with
    | none => simp [blankStage, handlerStage]
    | some hf =>
      simp only [blankStage, Bool.false_and, Bool.false_eq_true, if_false,
        handlerStage, List.filterMap_cons]
      cases hhf : hf (trimRowFn lw tw r) <;> simp [hhf]
  | true =>
    by_cases hp : ((trimRowFn lw tw r).data.any (fun s => s != "")) = true
    · cases h with
      | none => simp [blankStage, handlerStage, List.filter_cons, hp]
      | some hf =>
        simp only [blankStage, if_pos rfl, List.filter_cons, hp, if_true,
          handlerStage, List.filterMap_cons, Bool.true_and, Bool.not_true]
        cases hhf : hf (trimRowFn lw tw r) <;> simp [hhf]
    · simp only [Bool.not_eq_true] at hp
      cases h with
      | none => simp [blankStage, handlerStage, List.filter_cons, hp]
      | some hf => simp [blankStage, handlerStage, List.filter_cons, hp]

/-- If the whole cleaned stream (no sentinel) is empty, pulling one element
from it (`headerSplit`) yields nothing. -/
theorem headerSplit_eq_none_of_list_reader_nil (rdr : List Row)
    (lw tw ib : Bool) (h : Option (Row → Option Row))
    (hnil : list_reader rdr lw tw ib none h = []) :
    headerSplit rdr lw tw ib h = none := by
  induction rdr with
  | nil => rfl
  | cons r rest ih =>
    rw [list_reader_cons] at hnil
    unfold headerSplit
    cases hc : cleanOne lw tw ib h r with
    | none =>
      rw [hc] at hnil
      exact ih hnil
    | some c =>
      rw [hc] at hnil
      simp at hnil

/-- A list of strings has a non-empty element exactly when not every element
is empty. -/
theorem any_ne_empty_eq_not_all_empty (l : List String) :
    (l.any (fun s => s != "")) = !(l.all (fun s => s == "")) := by
  induction l with
  | nil => rfl
  | cons s t ih =>
    rw [List.any_cons, List.all_cons, Bool.not_and, ih]
    rfl

/-- Positional pairing of `zip`: the pair at index `i` is the pair of the
elements at index `i`. -/
theorem zip_getElem?_of {α β : Type} {l₁ : List α} {l₂ : List β} {i : Nat}
    {a : α} {b : β} (h₁ : l₁[i]? = some a) (h₂ : l₂[i]? = some b) :
    (l₁.zip l₂)[i]? = some (a, b) := by
  induction l₁ generalizing l₂ i with
  | nil => simp at h₁
  | cons x xs ih =>
    cases l₂ with
    | nil => simp at h₂
    | cons y ys =>
      cases i with
      | zero =>
        simp only [List.getElem?_cons_zero, Option.some.injEq] at h₁ h₂
        simp [List.zip_cons_cons, h₁, h₂]
      | succ n =>
        simp only [List.getElem?_cons_succ] at h₁ h₂
        simpa [List.zip_cons_cons] using ih h₁ h₂

/-- Unfolding equation for `flattenFields` on a non-empty field list. -/
theorem flattenFields_cons (record : List (String × String))
    (rv : Option String) (f : String) (fs : List String) :
    flattenFields record rv (f :: fs) =
      flattenOne record rv f (flattenFields record rv fs) :=
  rfl

/-- Looking a key up past an unrelated head entry. -/
theorem flattenFields_cons_irrel (f v : String)
    (record : List (String × String)) (rv : Option String) :
    ∀ fs : List String, f ∉ fs →
      flattenFields ((f, v) :: record) rv fs = flattenFields record rv fs := by
  intro fs
  induction fs with
  | nil => intro _; rfl
  | cons g gs ih =>
    intro hg
    rw [List.mem_cons, not_or] at hg
    have hgf : (g == f) = false :=
      beq_eq_false_iff_ne.mpr (fun he => hg.1 he.symm)
    rw [flattenFields_cons, flattenFields_cons, ih hg.2]
    unfold flattenOne
    rw [List.lookup_cons]
    simp only [hgf]

/-- Flattening the zip of a duplicate-free field list with a row of the same
length recovers the row. -/
theorem flattenFields_zip_self (rv : Option String) :
    ∀ (fields data : List String), fields.Nodup →
      data.length = fields.length →
      flattenFields (fields.zip data) rv fields = .ok data := by
  intro fields
  induction fields with
  | nil =>
    intro data _ hlen
    cases data with
    | nil => rfl
    | cons v vs => simp at hlen
  | cons f fs ih =>
    intro data hnd hlen
    cases data with
    | nil => simp at hlen
    | cons v vs =>
      rw [List.nodup_cons] at hnd
      simp only [List.length_cons, Nat.add_right_cancel_iff] at hlen
      rw [List.zip_cons_cons, flattenFields_cons,
          flattenFields_cons_irrel f v (fs.zip vs) rv fs hnd.1,
          ih vs hnd.2 hlen]
      unfold flattenOne
      rw [List.lookup_cons]
      simp only [beq_self_eq_true]
      rfl

/-- Every key of the record the mapper builds is one of the active fields. -/
theorem zip_fst_mem {α β : Type} (p : α × β) (l₁ : List α) (l₂ : List β)
    (h : p ∈ l₁.zip l₂) : p.1 ∈ l₁ := by
  obtain ⟨a, b⟩ := p
  exact (List.of_mem_zip h).1

/-- If `_map_reader_gen` ends in an error, the input splits into rows that
were yielded (as many yields as rows before the offender), the offending
row, and rows never reached. -/
theorem _map_reader_gen_error_split (fields : List String)
    (rk rv : Option String) :
    ∀ (rows : List Row) (ps : List (List String × Row)) (e : MapErr),
      _map_reader_gen fields rk rv rows = (ps, some e) →
      ∃ good bad rest, rows = good ++ bad :: rest ∧
        ps.length = good.length ∧
        _map_reader_step fields rk rv bad = .error e := by
  intro rows
  induction rows with
  | nil =>
    intro ps e h
    simp [_map_reader_gen] at h
  | cons line rest ih =>
    intro ps e h
    unfold _map_reader_gen at h
    cases hs : _map_reader_step fields rk rv line with
    | error e' =>
      rw [hs] at h
      simp only [Prod.mk.injEq] at h
      obtain ⟨hps, he⟩ := h
      refine ⟨[], line, rest, by simp, by simp [← hps], ?_⟩
      rw [hs]
      cases he
      rfl
    | ok p =>
      rw [hs] at h
      simp only [Prod.mk.injEq] at h
      obtain ⟨hps, he⟩ := h
      have hrest : _map_reader_gen fields rk rv rest =
          ((_map_reader_gen fields rk rv rest).1, some e) := by
        rw [← he]
      obtain ⟨good, bad, rest', hrows, hlen, hstep⟩ := ih _ e hrest
      refine ⟨line :: good, bad, rest', by simp [hrows], ?_, hstep⟩
      rw [← hps]
      simp [hlen]

/-- The exact-length branch of `_map_reader_step`. -/
theorem _map_reader_step_eq_len {fields : List String}
    {rk rv : Option String} {line : Row}
    (h : line.data.length = fields.length) :
    _map_reader_step fields rk rv line = .ok (fields, line) := by
  unfold _map_reader_step
  rw [if_pos h]

/-- The longer-row branch of `_map_reader_step` with no rest key. -/
theorem _map_reader_step_long_none {fields : List String}
    {rv : Option String} {line : Row}
    (h : fields.length < line.data.length) :
    _map_reader_step fields none rv line =
      .error (.tooManyFields line.line_num fields.length line.data.length) := by
  unfold _map_reader_step
  rw [if_neg (Nat.ne_of_gt h), if_pos h]

/-- The longer-row branch of `_map_reader_step` with a rest key: numbered
keys are synthesized, subject to the duplicate check. -/
theorem _map_reader_step_long_some {fields : List String}
    {rv : Option String} {line : Row} (rk : String)
    (h : fields.length < line.data.length) :
    _map_reader_step fields (some rk) rv line =
      (if (fields ++ (List.range (line.data.length - fields.length)).map
            (fun x => rk ++ toString x)).Nodup then
        .ok (fields ++ (List.range (line.data.length - fields.length)).map
              (fun x => rk ++ toString x), line)
      else
        .error (.restKeyDuplicate line.line_num
          (fields ++ (List.range (line.data.length - fields.length)).map
            (fun x => rk ++ toString x)))) := by
  unfold _map_reader_step
  rw [if_neg (Nat.ne_of_gt h), if_pos h]

/-- The shorter-row branch of `_map_reader_step` with a rest value: the row
is padded to the field count. -/
theorem _map_reader_step_short_some {fields : List String}
    {rk : Option String} {line : Row} (rv : String)
    (h : line.data.length < fields.length) :
    _map_reader_step fields rk (some rv) line =
      .ok (fields,
           { line with
             data := line.data ++
               List.replicate (fields.length - line.data.length) rv }) := by
  unfold _map_reader_step
  rw [if_neg (Nat.ne_of_lt h), if_neg (by omega)]

/-- The shorter-row branch of `_map_reader_step` with no rest value. -/
theorem _map_reader_step_short_none {fields : List String}
    {rk : Option String} {line : Row}
    (h : line.data.length < fields.length) :
    _map_reader_step fields rk none line =
      .error (.insufficientFields line.line_num fields.length
                line.data.length) := by
  unfold _map_reader_step
  rw [if_neg (Nat.ne_of_lt h), if_neg (by omega)]

/-- Every per-row error of `_map_reader_step` carries the line number of the
row it was raised for. -/
theorem _map_reader_step_error_line (fields : List String)
    (rk rv : Option String) (line : Row) (e : MapErr)
    (h : _map_reader_step fields rk rv line = .error e) :
    e.lineNum = line.line_num := by
  rcases Nat.lt_trichotomy line.data.length fields.length with hlt | heq | hgt
  · cases rv with
    | none =>
      rw [_map_reader_step_short_none hlt] at h
      simp only [Except.error.injEq] at h
      subst h
      rfl
    | some v =>
      rw [_map_reader_step_short_some v hlt] at h
      simp at h
  · rw [_map_reader_step_eq_len heq] at h
    simp at h
  · cases rk with
    | none =>
      rw [_map_reader_step_long_none hgt] at h
      simp only [Except.error.injEq] at h
      subst h
      rfl
    | some k =>
      rw [_map_reader_step_long_some k hgt] at h
      split at h
      · simp at h
      · simp only [Except.error.injEq] at h
        subst h
        rfl

/-- Whenever `_map_reader_step` yields, the active field list is
duplicate-free (given that the configured field list is). -/
theorem _map_reader_step_ok_nodup (fields : List String)
    (rk rv : Option String) (line : Row) (af : List String) (l : Row)
    (hnd : fields.Nodup)
    (h : _map_reader_step fields rk rv line = .ok (af, l)) : af.Nodup := by
  rcases Nat.lt_trichotomy line.data.length fields.length with hlt | heq | hgt
  · cases rv with
    | none =>
      rw [_map_reader_step_short_none hlt] at h
      simp at h
    | some v =>
      rw [_map_reader_step_short_some v hlt] at h
      simp only [Except.ok.injEq, Prod.mk.injEq] at h
      rw [← h.1]
      exact hnd
  · rw [_map_reader_step_eq_len heq] at h
    simp only [Except.ok.injEq, Prod.mk.injEq] at h
    rw [← h.1]
    exact hnd
  · cases rk with
    | none =>
      rw [_map_reader_step_long_none hgt] at h
      simp at h
    | some k =>
      rw [_map_reader_step_long_some k hgt] at h
      split at h
      · rename_i hdup
        simp only [Except.ok.injEq, Prod.mk.injEq] at h
        rw [← h.1]
        exact hdup
      · simp at h

/-- Renaming does not change the number of fields. -/
theorem applyRename_length (rn : Option (List (String × String)))
    (fs : List String) : (applyRename rn fs).length = fs.length := by
  cases rn with
  | none => rfl
  | some m =>
    by_cases hm : m.isEmpty
    · simp [applyRename, hm]
    · simp [applyRename, hm]

/-- Inversion for a successful `_get_fields`: the resolved fields are
non-empty and duplicate-free, and the returned reader is `list_reader` over
the (possibly advanced) source with the resolved fields as the sentinel when
`ignore_rows_with_fields` is set. -/
theorem _get_fields_ok_inv (rdr : List Row) (fieldsOpt : Option (List Col))
    (handler : Option (Row → Option Row)) (lw tw ib irwf : Bool)
    (rn : Option (List (String × String))) (cleaned : List Row)
    (fs : List String)
    (h : _get_fields rdr fieldsOpt handler lw tw ib irwf rn =
          .ok (cleaned, fs)) :
    fs.Nodup ∧ fs ≠ [] ∧
      ∃ base, cleaned = list_reader base lw tw ib
        (if irwf then some fs else none) handler := by
  unfold _get_fields at h
  by_cases hb : (fieldsOpt.isSome = true ∧ rn.isSome = true)
  · rw [if_pos hb] at h
    simp at h
  · rw [if_neg hb] at h
    cases hM : (match fieldsOpt with
                | none =>
                  match headerSplit rdr lw tw ib handler with
                  | none => Except.error RdrErr.stopIteration
                  | some (hdr, rest) => Except.ok (rest, hdr.data)
                | some cols =>
                  Except.ok (rdr, cols.map Col.resolve)) with
    | error e =>
      rw [hM] at h
      simp at h
    | ok p =>
      obtain ⟨baseRdr, fs0⟩ := p
      rw [hM] at h
      dsimp only at h
      by_cases hie : fs0.isEmpty = true
      · rw [if_pos hie] at h
        simp at h
      · rw [if_neg hie] at h
        by_cases hndp : (applyRename rn fs0).Nodup
        · rw [if_pos hndp] at h
          simp only [Except.ok.injEq, Prod.mk.injEq] at h
          obtain ⟨hc, hfs⟩ := h
          subst hfs
          refine ⟨hndp, ?_, ⟨baseRdr, hc.symm⟩⟩
          intro hnil
          apply hie
          rw [List.isEmpty_iff, ← List.length_eq_zero,
              ← applyRename_length rn fs0, hnil]
          rfl
        · rw [if_neg hndp] at h
          simp at h

/-- Membership in an appended list of names, as a Boolean. -/
theorem contains_append (l₁ l₂ : List String) (f : String) :
    (l₁ ++ l₂).contains f = (l₁.contains f || l₂.contains f) := by
  simp [List.elem_eq_mem, List.contains, List.mem_append, Bool.decide_or]

/-- The names recorded for one written row are exactly the fields zipped
against a non-blank value. -/
theorem contains_map_fst_filter (l : List (String × String)) (f : String) :
    (((l.filter (fun p => (pyStrip p.2) != "")).map Prod.fst).contains f) =
      l.any (fun p => f == p.1 && (pyStrip p.2) != "") := by
  induction l with
  | nil => rfl
  | cons p t ih =>
    by_cases hq : ((pyStrip p.2) != "") = true
    · rw [List.filter_cons, if_pos hq, List.map_cons, List.contains_cons, ih,
          List.any_cons, hq, Bool.and_true]
    · have hq' : ((pyStrip p.2) != "") = false := by simpa using hq
      rw [List.filter_cons, if_neg (by simp [hq']), ih, List.any_cons, hq',
          Bool.and_false, Bool.false_or]

/-- Effect of writing a sequence of rows through a minimizing header writer
with no handler: each row is buffered and the used-field set accumulates
exactly the fields that were ever zipped against a non-blank value. -/
theorem writeAll_minimize_spec (fields : List String) :
    ∀ (rows : List (List String)) (used : List String)
      (buf : List (List String)) (cl : Bool) (cc : Nat)
      (em : List (List String)),
      ∃ used',
        HeaderWriter.writeAll
            ⟨fields, true, none, used, buf, cl, cc, em⟩ rows =
          .ok ⟨fields, true, none, used', buf ++ rows, cl, cc, em⟩ ∧
        ∀ f, used'.contains f =
          (used.contains f ||
            rows.any (fun row =>
              (fields.zip row).any (fun p => f == p.1 && (pyStrip p.2) != ""))) := by
  intro rows
  induction rows with
  | nil =>
    intro used buf cl cc em
    exact ⟨used, by simp [HeaderWriter.writeAll], by simp⟩
  | cons r rs ih =>
    intro used buf cl cc em
    obtain ⟨used', hw, hc⟩ :=
      ih (used ++ ((fields.zip r).filter (fun p => (pyStrip p.2) != "")).map
            Prod.fst)
         (buf ++ [r]) cl cc em
    refine ⟨used', ?_, ?_⟩
    · unfold HeaderWriter.writeAll HeaderWriter.writeRow HeaderWriter.put
      dsimp only
      rw [if_pos rfl]
      rw [hw]
      simp
    · intro f
      rw [hc f, contains_append, contains_map_fst_filter, List.any_cons,
          Bool.or_assoc]

/-- Claim C1: how one cleaned row is reconciled against the field count:
equal length pairs each field with the value at the same position; a longer
row with a configured rest key gets numbered extra keys
`rest_key0, rest_key1, ...` in order and fails without a rest key; a
shorter row with a configured rest value is padded with it to the field
count and fails without a rest value. -/
theorem c1_row_reconciliation (fields : List String)
    (rest_key rest_val : Option String) (line : Row) :
    (line.data.length = fields.length →
      _map_reader_step fields rest_key rest_val line = .ok (fields, line) ∧
      ∀ (i : Nat) (f v : String), fields[i]? = some f →
        line.data[i]? = some v →
        ((recordOfZip fields line).entries)[i]? = some (f, v)) ∧
    (fields.length < line.data.length →
      (rest_key = none →
        _map_reader_step fields rest_key rest_val line =
          .error (.tooManyFields line.line_num fields.length
                    line.data.length)) ∧
      (∀ rk, rest_key = some rk →
        (fields ++ (List.range (line.data.length - fields.length)).map
          (fun x => rk ++ toString x)).Nodup →
        _map_reader_step fields rest_key rest_val line =
          .ok (fields ++ (List.range (line.data.length - fields.length)).map
                 (fun x => rk ++ toString x), line))) ∧
    (line.data.length < fields.length →
      (rest_val = none →
        _map_reader_step fields rest_key rest_val line =
          .error (.insufficientFields line.line_num fields.length
                    line.data.length)) ∧
      (∀ rv, rest_val = some rv →
        _map_reader_step fields rest_key rest_val line =
          .ok (fields,
               { line with
                 data := line.data ++ List.replicate
                   (fields.length - line.data.length) rv }))) := by
  refine ⟨fun hlen => ⟨_map_reader_step_eq_len hlen, ?_⟩,
          fun hgt => ⟨?_, ?_⟩, fun hlt => ⟨?_, ?_⟩⟩
  · intro i f v hf hv
    exact zip_getElem?_of hf hv
  · intro hk
    subst hk
    exact _map_reader_step_long_none hgt
  · intro rk hk hnd
    subst hk
    rw [_map_reader_step_long_some rk hgt, if_pos hnd]
  · intro hv
    subst hv
    exact _map_reader_step_short_none hlt
  · intro rv hv
    subst hv
    exact _map_reader_step_short_some rv hlt

/-- Witness for claim C1 at the spec's example: fields `[a, b]`, row
`[1, 2, 3]`, rest key `extra` yields active keys `a`, `b`, `extra0`. -/
theorem c1_row_reconciliation_witness :
    _map_reader_step ["a", "b"] (some "extra") none ⟨["1", "2", "3"], 7⟩ =
      .ok (["a", "b"] ++ (List.range (3 - 2)).map
             (fun x => "extra" ++ toString x), ⟨["1", "2", "3"], 7⟩) :=
  ((c1_row_reconciliation ["a", "b"] (some "extra") none
      ⟨["1", "2", "3"], 7⟩).2.1 (by decide)).2 "extra" rfl (by decide)

/-- Claim C2: `list_reader` applies its transformations in the fixed order
whitespace trim, then blank-row filtering, then skipping of rows equal to
the ignore sentinel, then the user handler; and a row for which the handler
returns the absent marker (`none`) is dropped from the output with no
error. -/
theorem c2_pipeline_order (rdr : List Row) (lw tw ib : Bool)
    (ig : Option (List String)) (h : Option (Row → Option Row)) :
    list_reader rdr lw tw ib ig h =
      handlerStage h (ignoreStage ig (blankStage ib (trimStage lw tw rdr))) ∧
    (∀ hf (pre : List Row) (r : Row) (post : List Row), h = some hf →
      hf r = none →
      handlerStage h (pre ++ r :: post) =
        handlerStage h pre ++ handlerStage h post) := by
  refine ⟨list_reader_eq_stages rdr lw tw ib ig h, ?_⟩
  intro hf pre r post hh hr
  subst hh
  simp [handlerStage, List.filterMap_append, List.filterMap_cons, hr]

/-- Witness for claim C2 at a concrete input: a handler that rejects the
middle row silently drops exactly that row. -/
theorem c2_pipeline_order_witness :
    handlerStage (some (fun r => if r.line_num = 2 then none else some r))
        ([⟨["a"], 1⟩] ++ ⟨["b"], 2⟩ :: [⟨["c"], 3⟩]) =
      handlerStage (some (fun r => if r.line_num = 2 then none else some r))
          [⟨["a"], 1⟩] ++
        handlerStage (some (fun r => if r.line_num = 2 then none else some r))
          [⟨["c"], 3⟩] :=
  (c2_pipeline_order [] true true true none
      (some (fun r => if r.line_num = 2 then none else some r))).2
    (fun r => if r.line_num = 2 then none else some r)
    [⟨["a"], 1⟩] ⟨["b"], 2⟩ [⟨["c"], 3⟩] rfl rfl

/-- Claim C3: for a row whose length equals the field count the mapper does
no rest-key expansion and no padding, and flattening the record it produces
with the same field list recovers the original row, under every flattener
configuration. -/
theorem c3_roundtrip (fields : List String) (rest_key rest_val : Option String)
    (rv : Option String) (ea : ExtrasAction) (line : Row)
    (hnd : fields.Nodup) (hlen : line.data.length = fields.length) :
    _map_reader_step fields rest_key rest_val line = .ok (fields, line) ∧
    flatten_dict (recordOfZip fields line).entries fields rv ea =
      .ok line.data := by
  refine ⟨_map_reader_step_eq_len hlen, ?_⟩
  have hbase : flattenFields (fields.zip line.data) rv fields =
      .ok line.data :=
    flattenFields_zip_self rv fields line.data hnd hlen
  unfold flatten_dict recordOfZip
  dsimp only
  rw [hbase]
  cases ea with
  | ignoreExtras => rfl
  | raiseOnExtras =>
    have hfind : (fields.zip line.data).find?
        (fun p => !(fields.contains p.1)) = none := by
      rw [List.find?_eq_none]
      intro p hp
      have hmem := zip_fst_mem p fields line.data hp
      simp [List.contains, List.elem_eq_mem, hmem]
    rw [hfind]
  | collectExtras =>
    have hfil : (fields.zip line.data).filter
        (fun p => !(fields.contains p.1)) = [] := by
      rw [List.filter_eq_nil_iff]
      intro p hp
      have hmem := zip_fst_mem p fields line.data hp
      simp [List.contains, List.elem_eq_mem, hmem]
    rw [hfil]
    simp

/-- Witness for claim C3 at a concrete input: fields `[a, b]` and row
`[1, 2]` map to a record that flattens back to `[1, 2]`. -/
theorem c3_roundtrip_witness :
    _map_reader_step ["a", "b"] none none ⟨["1", "2"], 3⟩ =
      .ok (["a", "b"], ⟨["1", "2"], 3⟩) ∧
    flatten_dict (recordOfZip ["a", "b"] ⟨["1", "2"], 3⟩).entries
        ["a", "b"] none .ignoreExtras = .ok ["1", "2"] :=
  c3_roundtrip ["a", "b"] none none none .ignoreExtras ⟨["1", "2"], 3⟩
    (by decide) (by decide)

/-- Claim C4 counterexample: with blank-row filtering enabled but neither
whitespace side trimmed (the `list_reader` defaults), the row whose single
field is one space has every field empty-or-whitespace after trimming, yet
the pipeline keeps it instead of removing it. -/
theorem c4_counterexample :
    specBlankRow ⟨[" "], 1⟩ = true ∧
    list_reader [⟨[" "], 1⟩] true true true none none = [⟨[" "], 1⟩] := by
  constructor
  · rfl
  · rfl

/-- Claim C4 (amended): with blank-row filtering enabled, the rows removed
by it are exactly those whose every field is the empty string after the
configured trimming (when a whitespace side is stripped, whitespace-only
fields become empty; with both whitespace flags left on they survive). -/
theorem c4_amended_blank_filter (rdr : List Row) (lw tw : Bool)
    (ig : Option (List String)) (h : Option (Row → Option Row)) :
    list_reader rdr lw tw true ig h =
      handlerStage h (ignoreStage ig ((trimStage lw tw rdr).filter
        (fun r => !(r.data.all (fun s => s == ""))))) := by
  rw [list_reader_eq_stages]
  have hblank : blankStage true (trimStage lw tw rdr) =
      (trimStage lw tw rdr).filter
        (fun r => !(r.data.all (fun s => s == ""))) := by
    unfold blankStage
    rw [if_pos rfl]
    exact List.filter_congr (fun r _ => any_ne_empty_eq_not_all_empty r.data)
  rw [hblank]

/-- Claim C5: duplicate field names always fail: a successful `_get_fields`
never resolves a field list with duplicates (a duplicate raises at the
call, and `dict_reader`/`obj_reader` propagate that error), and a row whose
rest-key expansion generates a key equal to an existing field name or to
another generated key makes `_map_reader_step` raise when that row is
reached, so every yielded active field list is duplicate-free. -/
theorem c5_duplicates_fail (rdr : List Row) (fieldsOpt : Option (List Col))
    (handler : Option (Row → Option Row)) (lw tw ib irwf : Bool)
    (rn : Option (List (String × String))) (rest_key rest_val : Option String)
    (fields af : List String) (line l : Row) :
    (∀ cleaned fs,
      _get_fields rdr fieldsOpt handler lw tw ib irwf rn = .ok (cleaned, fs) →
      fs.Nodup) ∧
    (∀ e, _get_fields rdr fieldsOpt handler lw tw ib irwf rn = .error e →
      dict_reader rdr fieldsOpt handler lw tw ib rest_key rest_val irwf rn =
        .error e ∧
      obj_reader rdr fieldsOpt handler lw tw ib rest_key rest_val irwf rn =
        .error e) ∧
    (∀ rk, fields.length < line.data.length → rest_key = some rk →
      ¬(fields ++ (List.range (line.data.length - fields.length)).map
          (fun x => rk ++ toString x)).Nodup →
      _map_reader_step fields rest_key rest_val line =
        .error (.restKeyDuplicate line.line_num
          (fields ++ (List.range (line.data.length - fields.length)).map
            (fun x => rk ++ toString x)))) ∧
    (fields.Nodup →
      _map_reader_step fields rest_key rest_val line = .ok (af, l) →
      af.Nodup) := by
  refine ⟨?_, ?_, ?_, ?_⟩
  · intro cleaned fs h
    exact (_get_fields_ok_inv rdr fieldsOpt handler lw tw ib irwf rn cleaned
      fs h).1
  · intro e h
    constructor
    · unfold dict_reader
      rw [h]
    · unfold obj_reader
      rw [h]
  · intro rk hgt hk hdup
    subst hk
    rw [_map_reader_step_long_some rk hgt, if_neg hdup]
  · intro hnd h
    exact _map_reader_step_ok_nodup fields rest_key rest_val line af l hnd h

/-- Witness for claim C5 at a concrete input: fields `[a, a0]` with rest
key `a` and a three-value row generate the colliding key `a0`, raising the
duplicate-key error with that row's line number. -/
theorem c5_duplicates_fail_witness :
    _map_reader_step ["a", "a0"] (some "a") none ⟨["1", "2", "3"], 4⟩ =
      .error (.restKeyDuplicate 4
        (["a", "a0"] ++ (List.range (3 - 2)).map
          (fun x => "a" ++ toString x))) :=
  (c5_duplicates_fail [] none none true true true true none (some "a") none
      ["a", "a0"] [] ⟨["1", "2", "3"], 4⟩ ⟨[], 0⟩).2.2.1 "a" (by decide) rfl
    (by decide)

/-- Claim C6: for rows written through a minimizing header writer (no
handler installed), the header written at close is exactly the subset of
the original field list whose fields received at least one non-blank value
in some written row, in original order; if no field ever did, the full
original field list is written instead. -/
theorem c6_minimized_header (fields : List String) (rows : List (List String))
    (w : HeaderWriter)
    (hw : (HeaderWriter.init fields true none).writeAll rows = .ok w) :
    w.close.emitted.head? = some
      (if (fields.filter (fun f => rows.any (fun row =>
            (fields.zip row).any
              (fun p => f == p.1 && (pyStrip p.2) != "")))).isEmpty then
        fields
      else
        fields.filter (fun f => rows.any (fun row =>
          (fields.zip row).any
            (fun p => f == p.1 && (pyStrip p.2) != "")))) := by
  obtain ⟨used', hw', hc⟩ := writeAll_minimize_spec fields rows [] [] false 0 []
  have hok := hw'.symm.trans hw
  simp only [Except.ok.injEq] at hok
  subst hok
  have hfe : fields.filter (fun x => used'.contains x) =
      fields.filter (fun f => rows.any (fun row =>
        (fields.zip row).any (fun p => f == p.1 && (pyStrip p.2) != ""))) :=
    List.filter_congr (fun x _ => (hc x).trans (Bool.false_or _))
  unfold HeaderWriter.close HeaderWriter.minHeader
  dsimp only
  rw [if_neg (by simp), if_pos rfl, hfe]
  simp

/-- Witness for claim C6 at a concrete input: with fields `[a, b, c]` and a
single row where only `a` is non-blank, the close-time header is `[a]`. -/
theorem c6_minimized_header_witness :
    (HeaderWriter.close ⟨["a", "b", "c"], true, none, ["a"],
        [["1", "", ""]], false, 0, []⟩).emitted.head? = some ["a"] := by
  have h := c6_minimized_header ["a", "b", "c"] [["1", "", ""]]
    ⟨["a", "b", "c"], true, none, ["a"], [["1", "", ""]], false, 0, []⟩ rfl
  exact h.trans (by rfl)

/-- Claim C7: configuration errors are raised at the call itself (supplied
fields combined with a rename mapping error immediately, and a successful
call implies the resolved field list is non-empty, duplicate-free and
passes the blank/identifier checks), whereas per-row structural errors
surface only as the deferred error of the stream: every cleaned row before
the offender is yielded as a record and the error carries the offending
row's line number. -/
theorem c7_error_timing (rdr : List Row) (fieldsOpt : Option (List Col))
    (handler : Option (Row → Option Row)) (lw tw ib irwf : Bool)
    (rest_key rest_val : Option String)
    (rn : Option (List (String × String))) :
    (∀ cs m, fieldsOpt = some cs → rn = some m →
      dict_reader rdr fieldsOpt handler lw tw ib rest_key rest_val irwf rn =
        .error .renameWithFields ∧
      obj_reader rdr fieldsOpt handler lw tw ib rest_key rest_val irwf rn =
        .error .renameWithFields) ∧
    (∀ recs merr,
      dict_reader rdr fieldsOpt handler lw tw ib rest_key rest_val irwf rn =
        .ok (recs, merr) →
      ∃ cleaned fs,
        _get_fields rdr fieldsOpt handler lw tw ib irwf rn =
          .ok (cleaned, fs) ∧
        fs ≠ [] ∧ fs.Nodup ∧ fs.all (fun f => f != "") = true ∧
        ∀ e, merr = some e → ∃ good bad rest,
          cleaned = good ++ bad :: rest ∧ recs.length = good.length ∧
          _map_reader_step fs rest_key rest_val bad = .error e ∧
          e.lineNum = bad.line_num) ∧
    (∀ recs merr,
      obj_reader rdr fieldsOpt handler lw tw ib rest_key rest_val irwf rn =
        .ok (recs, merr) →
      ∃ cleaned fs,
        _get_fields rdr fieldsOpt handler lw tw ib irwf rn =
          .ok (cleaned, fs) ∧
        (∀ f ∈ fs,
          ¬(f == "" || !(pyIsIdentifier f) || f == "line_num") = true) ∧
        ∀ e, merr = some e → ∃ good bad rest,
          cleaned = good ++ bad :: rest ∧ recs.length = good.length ∧
          _map_reader_step fs rest_key rest_val bad = .error e ∧
          e.lineNum = bad.line_num) := by
  refine ⟨?_, ?_, ?_⟩
  · intro cs m hf hm
    subst hf
    subst hm
    have hg : _get_fields rdr (some cs) handler lw tw ib irwf (some m) =
        .error .renameWithFields := by
      unfold _get_fields
      rw [if_pos ⟨rfl, rfl⟩]
    constructor
    · unfold dict_reader
      rw [hg]
    · unfold obj_reader
      rw [hg]
  · intro recs merr h
    unfold dict_reader at h
    cases hg : _get_fields rdr fieldsOpt handler lw tw ib irwf rn with
    | error e =>
      rw [hg] at h
      simp at h
    | ok p =>
      obtain ⟨cleaned, fs⟩ := p
      rw [hg] at h
      dsimp only at h
      by_cases hall : fs.all (fun f => f != "") = true
      · rw [if_pos hall] at h
        simp only [Except.ok.injEq, Prod.mk.injEq] at h
        obtain ⟨hrecs, hmerr⟩ := h
        obtain ⟨hnd, hne, -⟩ := _get_fields_ok_inv rdr fieldsOpt handler lw
          tw ib irwf rn cleaned fs hg
        refine ⟨cleaned, fs, rfl, hne, hnd, hall, ?_⟩
        intro e he
        have hg2 : (_map_reader_gen fs rest_key rest_val cleaned).2 =
            some e := hmerr.trans he
        have hgen : _map_reader_gen fs rest_key rest_val cleaned =
            ((_map_reader_gen fs rest_key rest_val cleaned).1, some e) := by
          rw [← hg2]
        obtain ⟨good, bad, rest, hsp, hlen, hstep⟩ :=
          _map_reader_gen_error_split fs rest_key rest_val cleaned _ e hgen
        refine ⟨good, bad, rest, hsp, ?_, hstep,
          _map_reader_step_error_line fs rest_key rest_val bad e hstep⟩
        rw [← hrecs, List.length_map, hlen]
      · rw [if_neg hall] at h
        simp at h
  · intro recs merr h
    unfold obj_reader at h
    cases hg : _get_fields rdr fieldsOpt handler lw tw ib irwf rn with
    | error e =>
      rw [hg] at h
      simp at h
    | ok p =>
      obtain ⟨cleaned, fs⟩ := p
      rw [hg] at h
      dsimp only at h
      cases hfind : fs.find? (fun f => f == "" || !(pyIsIdentifier f) ||
          f == "line_num") with
      | some f =>
        rw [hfind] at h
        simp at h
      | none =>
        rw [hfind] at h
        dsimp only at h
        simp only [Except.ok.injEq, Prod.mk.injEq] at h
        obtain ⟨hrecs, hmerr⟩ := h
        refine ⟨cleaned, fs, rfl, List.find?_eq_none.mp hfind, ?_⟩
        intro e he
        have hg2 : (_map_reader_gen fs rest_key rest_val cleaned).2 =
            some e := hmerr.trans he
        have hgen : _map_reader_gen fs rest_key rest_val cleaned =
            ((_map_reader_gen fs rest_key rest_val cleaned).1, some e) := by
          rw [← hg2]
        obtain ⟨good, bad, rest, hsp, hlen, hstep⟩ :=
          _map_reader_gen_error_split fs rest_key rest_val cleaned _ e hgen
        refine ⟨good, bad, rest, hsp, ?_, hstep,
          _map_reader_step_error_line fs rest_key rest_val bad e hstep⟩
        rw [← hrecs, List.length_map, hlen]

/-- Witness for claim C7 at a concrete input: supplying both a field list
and a rename mapping errors at the call for both readers. -/
theorem c7_error_timing_witness :
    dict_reader [] (some [Col.plain "a"]) none true false true none none true
        (some [("a", "b")]) = .error .renameWithFields ∧
    obj_reader [] (some [Col.plain "a"]) none true false true none none true
        (some [("a", "b")]) = .error .renameWithFields :=
  (c7_error_timing [] (some [Col.plain "a"]) none true false true true none
      none (some [("a", "b")])).1 [Col.plain "a"] [("a", "b")] rfl rfl

/-- Claim C8: close is idempotent for both writer kinds, scope exit is the
very close operation, and from a freshly opened writer any positive number
of close calls closes the underlying writer exactly once. -/
theorem c8_close_idempotent :
    (∀ s : HeaderlessState, s.close.close = s.close) ∧
    (∀ s : HeaderlessState, s.exitScope = s.close) ∧
    (∀ (s : HeaderlessState) (n : Nat), s.closed = false →
      s.wrtrCloseCalls = 0 → 1 ≤ n →
      (HeaderlessState.close^[n] s).wrtrCloseCalls = 1) ∧
    (∀ w : HeaderWriter, w.close.close = w.close) ∧
    (∀ w : HeaderWriter, w.exitScope = w.close) ∧
    (∀ (w : HeaderWriter) (n : Nat), w.closed = false →
      w.wrtrCloseCalls = 0 → 1 ≤ n →
      (HeaderWriter.close^[n] w).wrtrCloseCalls = 1) := by
  have hidem1 : ∀ s : HeaderlessState, s.close.close = s.close := by
    intro s
    by_cases hs : s.closed
    · simp [HeaderlessState.close, hs]
    · simp [HeaderlessState.close, hs]
  have hidem2 : ∀ w : HeaderWriter, w.close.close = w.close := by
    intro w
    by_cases hw : w.closed
    · simp [HeaderWriter.close, hw]
    · by_cases hm : w.minimize
      · simp [HeaderWriter.close, hw, hm]
      · simp [HeaderWriter.close, hw, hm]
  refine ⟨hidem1, fun s => rfl, ?_, hidem2, fun w => rfl, ?_⟩
  · intro s n hs hc hn
    obtain ⟨m, rfl⟩ : ∃ m, n = m + 1 := ⟨n - 1, by omega⟩
    rw [Function.iterate_succ_apply, Function.iterate_fixed (hidem1 s) m]
    simp [HeaderlessState.close, hs, hc]
  · intro w n hw hc hn
    obtain ⟨m, rfl⟩ : ∃ m, n = m + 1 := ⟨n - 1, by omega⟩
    rw [Function.iterate_succ_apply, Function.iterate_fixed (hidem2 w) m]
    by_cases hm : w.minimize
    · simp [HeaderWriter.close, hw, hm, hc]
    · simp [HeaderWriter.close, hw, hm, hc]

/-- Witness for claim C8 at concrete inputs: two closes of a fresh
headerless writer and three closes of a fresh header writer each close the
underlying writer exactly once. -/
theorem c8_close_idempotent_witness :
    (HeaderlessState.close^[2] ⟨false, 0⟩).wrtrCloseCalls = 1 ∧
    (HeaderWriter.close^[3]
        (HeaderWriter.init ["a"] false none)).wrtrCloseCalls = 1 :=
  ⟨c8_close_idempotent.2.2.1 ⟨false, 0⟩ 2 rfl rfl (by decide),
   c8_close_idempotent.2.2.2.2.2 (HeaderWriter.init ["a"] false none) 3 rfl
     rfl (by decide)⟩

/-- Claim C9: with `ignore_rows_with_fields` set (the default), the skip
sentinel is the resolved field list itself: the reader returned by
`_get_fields` is `list_reader` with the resolved fields as the sentinel,
and (with no handler installed) no cleaned row whose fields equal the field
list survives, wherever it occurs in the input. -/
theorem c9_fields_sentinel (rdr : List Row) (fieldsOpt : Option (List Col))
    (handler : Option (Row → Option Row)) (lw tw ib : Bool)
    (rn : Option (List (String × String))) (cleaned : List Row)
    (fs : List String)
    (h : _get_fields rdr fieldsOpt handler lw tw ib true rn =
          .ok (cleaned, fs)) :
    (∃ base, cleaned = list_reader base lw tw ib (some fs) handler) ∧
    (handler = none → ∀ r ∈ cleaned, r.data ≠ fs) := by
  obtain ⟨-, -, base, hbase⟩ := _get_fields_ok_inv rdr fieldsOpt handler lw
    tw ib true rn cleaned fs h
  rw [if_pos rfl] at hbase
  refine ⟨⟨base, hbase⟩, ?_⟩
  intro hh r hr
  subst hh
  rw [hbase, list_reader_eq_stages] at hr
  simp only [handlerStage, ignoreStage] at hr
  have hpred := (List.mem_filter.mp hr).2
  exact bne_iff_ne.mp hpred

/-- Witness for claim C9 at a concrete input: the header is `[a]` and the
later data row `[a]` (line 3) is dropped even though it is not a repeated
header at the start. -/
theorem c9_fields_sentinel_witness :
    (∃ base, [(⟨["x"], 2⟩ : Row)] =
      list_reader base true false true (some ["a"]) none) ∧
    ((none : Option (Row → Option Row)) = none →
      ∀ r ∈ [(⟨["x"], 2⟩ : Row)], r.data ≠ ["a"]) :=
  c9_fields_sentinel [⟨["a"], 1⟩, ⟨["x"], 2⟩, ⟨["a"], 3⟩] none none true false
    true none [⟨["x"], 2⟩] ["a"] rfl

/-- Claim C10: when fields are not supplied and the cleaned source yields
no usable header row (empty source, or every row removed by
trimming/blank-filtering/the handler), `dict_reader` and `obj_reader` raise
`StopIteration` at the call itself — not a configuration `ValueError`, and
not an empty stream. -/
theorem c10_empty_header_stop (rdr : List Row)
    (handler : Option (Row → Option Row)) (lw tw ib irwf : Bool)
    (rest_key rest_val : Option String)
    (rn : Option (List (String × String)))
    (h : list_reader rdr lw tw ib none handler = []) :
    dict_reader rdr none handler lw tw ib rest_key rest_val irwf rn =
      .error .stopIteration ∧
    obj_reader rdr none handler lw tw ib rest_key rest_val irwf rn =
      .error .stopIteration := by
  have hsplit := headerSplit_eq_none_of_list_reader_nil rdr lw tw ib handler h
  have hg : _get_fields rdr none handler lw tw ib irwf rn =
      .error .stopIteration := by
    unfold _get_fields
    rw [if_neg (by simp)]
    dsimp only
    rw [hsplit]
  constructor
  · unfold dict_reader
    rw [hg]
  · unfold obj_reader
    rw [hg]

/-- Witness for claim C10 at a concrete input: a source whose only row is
blank after stripping leaves no header row, so both readers raise
`StopIteration` at the call. -/
theorem c10_empty_header_stop_witness :
    dict_reader [⟨["  "], 1⟩] none none true false true none none true none =
      .error .stopIteration ∧
    obj_reader [⟨["  "], 1⟩] none none true false true none none true none =
      .error .stopIteration :=
  c10_empty_header_stop [⟨["  "], 1⟩] none true false true true none none
    none rfl
